import Mathlib

/-!
Shallow embedding of the routing core of `gamepad_client`
(`tinkerforge_control.py`, `keys.py`, `config.py`) and proofs about it.

Python dictionaries are modelled as insertion-ordered association lists,
Python list indexing (with negative wrap-around and `IndexError`) by
`pyIdx`/`pyGet?`/`setActiveNat`, and the float `section_width` by an exact
rational (exact for every width `(upper - lower) / N` with integer
thresholds, which is the only way the source produces one).
-/

namespace GamepadClient

/-- RGB color triple: the three-component `color_on` / `color_off` lists of
`config.py`'s `RGB_Button` (defaults `[15,15,15]` and `[1,1,1]`);
`map(add, a, b)` on two such triples is componentwise `+` on this type. -/
abbrev Color := Int × Int × Int

/-- `config.py`, class `RGB_Button`: indicator identity and its two colors. -/
structure RGB_Button where
  uid : String
  color_off : Color
  color_on : Color
deriving DecidableEq

/-- `tinkerforge_control.py`, dataclass `InputServerData`.  The opaque
`RemoteInputServer` transport handle is not modelled: no routing decision
reads it. -/
structure InputServerData where
  index : Int
  active : Bool
  rgb_button : RGB_Button
deriving DecidableEq

/-- Python `dict` assignment `d[k] = v` on an insertion-ordered association
list: update in place when the key is present, append otherwise. -/
def dictSet {α : Type} : List (String × α) → String → α → List (String × α)
  | [], k, v => [(k, v)]
  | (k₀, v₀) :: rest, k, v =>
    if k₀ = k then (k₀, v) :: rest else (k₀, v₀) :: dictSet rest k v

/-- Python `d.get(k)`: the value at the first matching key, if any. -/
def dictGet? {α : Type} : List (String × α) → String → Option α
  | [], _ => none
  | (k₀, v₀) :: rest, k => if k₀ = k then some v₀ else dictGet? rest k

/-- Python `d.get(k, default)`. -/
def dGetD {α : Type} (d : List (String × α)) (k : String) (v₀ : α) : α :=
  (dictGet? d k).getD v₀

/-- Resolve a Python list index (a negative index counts from the end) to a
position in the list; `none` models `IndexError`. -/
def pyIdx (n : Nat) (i : Int) : Option Nat :=
  let j : Int := if i < 0 then i + n else i
  if 0 ≤ j ∧ j < n then some j.toNat else none

/-- Python `l[i]` on a list. -/
def pyGet? {α : Type} (l : List α) (i : Int) : Option α :=
  (pyIdx l.length i).bind fun j => l[j]?

/-- Set the `active` flag of the element at (non-negative) position `j`. -/
def setActiveNat (l : List InputServerData) (j : Nat) (v : Bool) :
    List InputServerData :=
  match l[j]? with
  | some sd => l.set j { sd with active := v }
  | none => l

/-- Python `server_list[i].active = v`; `none` models `IndexError`. -/
def pySetActive? (l : List InputServerData) (i : Int) (v : Bool) :
    Option (List InputServerData) :=
  (pyIdx l.length i).map fun j => setActiveNat l j v

/-- The console messages `cb_position` prints. -/
inductive PotiMsg where
  | noGamepads
  | allGamepads
  | gamepadActive (idx : Int)
deriving DecidableEq

/-- Observable side effects of the callbacks: a printed position-router
message, or an invocation of `print_current_state` — which repaints the
status line and calls `color_all_buttons`, the indicator reflector. -/
inductive Effect where
  | printMsg (m : PotiMsg)
  | reflect
deriving DecidableEq

/-- The `for index in cls.index_dict[uid]: server_list[index].active =
new_state` loop of `cb_button`; the returned Bool is `false` when an
`IndexError` stopped the loop early (keeping the partial updates). -/
def setLoop (sl : List InputServerData) (idxs : List Int) (v : Bool) :
    List InputServerData × Bool :=
  match idxs with
  | [] => (sl, true)
  | i :: rest =>
    match pySetActive? sl i v with
    | some sl' => setLoop sl' rest v
    | none => (sl, false)

/-- `tinkerforge_control.py`, `TinkerforgeControl.cb_button`.  Returns the
new `button_state_dict`, the new server list and the effect log; `none`
models the uncaught `KeyError` when `uid` is missing from `index_dict` (the
handler's `except` clause catches only `IndexError`, after which it reaches
neither the rest of the loop nor `print_current_state`). -/
def cb_button (state : Bool) (uid : String)
    (button_state_dict : List (String × Bool))
    (index_dict : List (String × List Int))
    (server_list : List InputServerData) :
    Option (List (String × Bool) × List InputServerData × List Effect) :=
  if state then
    let new_state := !(dGetD button_state_dict uid true)
    let bsd' := dictSet button_state_dict uid new_state
    match dictGet? index_dict uid with
    | none => none
    | some idxs =>
      match setLoop server_list idxs new_state with
      | (sl', true) => some (bsd', sl', [Effect.reflect])
      | (sl', false) => some (bsd', sl', [])
  else
    some (button_state_dict, server_list, [])

/-- `add_color` in `color_all_buttons`: the on-color when the channel is
active, the off-color otherwise. -/
def chanColor (sd : InputServerData) : Color :=
  if sd.active then sd.rgb_button.color_on else sd.rgb_button.color_off

/-- One iteration of the accumulation loop of `color_all_buttons`:
`color_dict[uid] = tuple(map(add, add_color, old_color))` with
`old_color = color_dict.get(uid, (0, 0, 0))`. -/
def colorStep (d : List (String × Color)) (sd : InputServerData) :
    List (String × Color) :=
  dictSet d sd.rgb_button.uid
    (chanColor sd + dGetD d sd.rgb_button.uid (0, 0, 0))

/-- `tinkerforge_control.py`, `TinkerforgeControl.color_all_buttons`: the
`(uid, color)` pairs pushed by `button.set_color(*color_dict[uid])`, in dict
insertion order (`button_dict` holds the same keys in the same order as
`color_dict`, so the push loop walks exactly these entries). -/
def color_all_buttons (server_list : List InputServerData) :
    List (String × Color) :=
  server_list.foldl colorStep []

/-- The class-level state `cb_position` reads and writes
(`lower_threshold`, `old_position`, `old_section`). -/
structure PotiState where
  lower_threshold : Int
  old_position : Int
  old_section : Int
deriving DecidableEq

/-- `int((position - cls.lower_threshold) // section_width)`: Python float
floor-division followed by `int` of an integral float, modelled exactly over
`ℚ`. -/
def compute_section (lower : Int) (width : ℚ) (pos : Int) : Int :=
  Int.floor (((pos - lower : Int) : ℚ) / width)

/-- `tinkerforge_control.py`, `TinkerforgeControl.cb_position`.  Returns the
new poti state, server list and effect log; `none` models an uncaught
`IndexError` (which no in-range section can produce). -/
def cb_position (pos : Int) (section_width : ℚ)
    (st : PotiState) (server_list : List InputServerData) :
    Option (PotiState × List InputServerData × List Effect) :=
  if 2 < |pos - st.old_position| then
    let sec := compute_section st.lower_threshold section_width pos
    if sec = st.old_section then
      some (st, server_list, [])
    else
      let branch : Option (List InputServerData × PotiMsg) :=
        if sec < 0 then
          some (server_list.map (fun sd => { sd with active := false }),
            PotiMsg.noGamepads)
        else if (server_list.length : Int) ≤ sec then
          some (server_list.map (fun sd => { sd with active := true }),
            PotiMsg.allGamepads)
        else
          let cleared := server_list.map (fun sd => { sd with active := false })
          match pySetActive? cleared (sec - 1) true with
          | none => none
          | some sl' =>
            match pyGet? sl' sec with
            | none => none
            | some sd => some (sl', PotiMsg.gamepadActive sd.index)
      match branch with
      | none => none
      | some (sl', msg) =>
        some ({ st with old_section := sec, old_position := pos }, sl',
          [Effect.printMsg msg])
  else
    some (st, server_list, [])

/-- The startup assertion `assert(cls.upper_threshold >= cls.lower_threshold)`
of `start_LinearPoti` (`tinkerforge_control.py` line 171): the only check the
thresholds receive before routing starts. -/
def threshold_check (lower upper : Int) : Bool :=
  decide (lower ≤ upper)

/-- `keys.py`, `HotkeyManager.verify_hotkeys` hands exactly these strings to
`keyboard.parse_hotkey` (the `if hotkey:` guard skips empty ones). -/
def verify_parsed (hotkey_list : List String) : List String :=
  hotkey_list.filter (fun h => h ≠ "")

/-- One iteration of the `for i, hotkey in enumerate(self.hotkey_list)` body
of `HotkeyManager.scan_loop` (`keys.py`); `none` models an uncaught
`IndexError` from `self.server_list[i]`. -/
def scan_step (pressed : String → Bool)
    (cp : List (String × Bool)) (sl : List InputServerData)
    (i : Nat) (hotkey : String) :
    Option (List (String × Bool) × List InputServerData) :=
  if pressed hotkey then
    if dGetD cp hotkey false then
      some (cp, sl)
    else
      match pyGet? sl (i : Int) with
      | none => none
      | some sd =>
        some (dictSet cp hotkey true, setActiveNat sl i (!sd.active))
  else
    some (dictSet cp hotkey false, sl)

/-- The rest of one pass of `scan_loop`'s `for` statement, starting at index
`i`.  Returns the hotkey strings handed to `is_pressed` (in order, including
the query of an iteration whose body then raised) and the resulting state
(`none` = uncaught `IndexError`). -/
def scan_go (pressed : String → Bool) (i : Nat) (hl : List String)
    (cp : List (String × Bool)) (sl : List InputServerData) :
    List String × Option (List (String × Bool) × List InputServerData) :=
  match hl with
  | [] => ([], some (cp, sl))
  | h :: rest =>
    match scan_step pressed cp sl i h with
    | none => ([h], none)
    | some (cp', sl') =>
      let (qs, r) := scan_go pressed (i + 1) rest cp' sl'
      (h :: qs, r)

/-- One full pass of `HotkeyManager.scan_loop` over the hotkey list, given
one poll's `is_pressed` oracle. -/
def scan_pass (pressed : String → Bool) (hl : List String)
    (cp : List (String × Bool)) (sl : List InputServerData) :
    List String × Option (List (String × Bool) × List InputServerData) :=
  scan_go pressed 0 hl cp sl

/-- Consecutive passes of `scan_loop`, one per polled oracle. -/
def scan_many : List (String → Bool) → List String →
    List (String × Bool) × List InputServerData →
    Option (List (String × Bool) × List InputServerData)
  | [], _, st => some st
  | o :: os, hl, st =>
    match (scan_pass o hl st.1 st.2).2 with
    | none => none
    | some st' => scan_many os hl st'

/-- The active flag of the channel at position `j`, in declaration order. -/
def activeAt (sl : List InputServerData) (j : Nat) : Option Bool :=
  (sl[j]?).map (fun sd => sd.active)

/-- The effect log of a `cb_position` call (empty when the callback raised). -/
def effectsOf (r : Option (PotiState × List InputServerData × List Effect)) :
    List Effect :=
  match r with
  | some (_, _, log) => log
  | none => []

/-- The list of active flags a `cb_position` call leaves behind. -/
def activesOf (r : Option (PotiState × List InputServerData × List Effect)) :
    Option (List Bool) :=
  r.map (fun t => t.2.1.map (fun sd => sd.active))

/-- Concrete fixture: a button with the configuration's default colors
(`color_off = [1,1,1]`, `color_on = [15,15,15]`). -/
def sampleButton : RGB_Button :=
  { uid := "b", color_off := (1, 1, 1), color_on := (15, 15, 15) }

/-- Concrete fixture: one channel. -/
def sampleChannel (i : Int) (a : Bool) : InputServerData :=
  { index := i, active := a, rgb_button := sampleButton }

/-- Concrete fixture: three channels in declaration order. -/
def sampleList3 (a b c : Bool) : List InputServerData :=
  [sampleChannel 0 a, sampleChannel 1 b, sampleChannel 2 c]

/-- The class-level state at program start (`lower_threshold = 5`,
`old_position = -100`, `old_section = -100`). -/
def initState : PotiState :=
  { lower_threshold := 5, old_position := -100, old_section := -100 }

/-! ## Helper lemmas on the Python-container model -/

theorem dictGet?_dictSet_self {α : Type} (d : List (String × α)) (k : String)
    (v : α) : dictGet? (dictSet d k v) k = some v := by
  induction d with
  | nil => simp [dictSet, dictGet?]
  | cons kv rest ih =>
    obtain ⟨k₀, v₀⟩ := kv
    by_cases h : k₀ = k <;> simp [dictSet, dictGet?, h, ih]

theorem dictGet?_dictSet_ne {α : Type} (d : List (String × α)) (k k' : String)
    (v : α) (h : k' ≠ k) : dictGet? (dictSet d k v) k' = dictGet? d k' := by
  induction d with
  | nil =>
    simp only [dictSet, dictGet?]
    rw [if_neg (Ne.symm h)]
  | cons kv rest ih =>
    obtain ⟨k₀, v₀⟩ := kv
    simp only [dictSet]
    by_cases h₀ : k₀ = k
    · subst h₀
      simp only [if_pos rfl, dictGet?]
      rw [if_neg (Ne.symm h), if_neg (Ne.symm h)]
    · simp only [if_neg h₀, dictGet?]
      by_cases h₁ : k₀ = k'
      · rw [if_pos h₁, if_pos h₁]
      · rw [if_neg h₁, if_neg h₁, ih]

theorem length_setActiveNat (l : List InputServerData) (j : Nat) (v : Bool) :
    (setActiveNat l j v).length = l.length := by
  unfold setActiveNat
  cases h : l[j]? <;> simp [h]

theorem getElem?_setActiveNat_ne (l : List InputServerData) (j : Nat) (v : Bool)
    (j' : Nat) (h : j' ≠ j) : (setActiveNat l j v)[j']? = l[j']? := by
  unfold setActiveNat
  cases hg : l[j]? with
  | none => rfl
  | some sd => exact List.getElem?_set_ne (Ne.symm h)

theorem activeAt_setActiveNat (l : List InputServerData) (j : Nat) (v : Bool)
    (j' : Nat) :
    activeAt (setActiveNat l j v) j' =
      if j' = j ∧ j < l.length then some v else activeAt l j' := by
  by_cases hj : j' = j
  · subst hj
    by_cases hlt : j' < l.length
    · obtain ⟨sd, hsd⟩ : ∃ sd, l[j']? = some sd := by
        rw [List.getElem?_eq_getElem hlt]; exact ⟨_, rfl⟩
      simp [setActiveNat, hsd, activeAt, List.getElem?_set_eq_of_lt _ hlt, hlt]
    · have hg : l[j']? = none := List.getElem?_eq_none (by omega)
      simp [setActiveNat, hg, activeAt, hlt]
  · simp [activeAt, getElem?_setActiveNat_ne l j v j' hj, hj]

theorem pyIdx_natCast (n j : Nat) :
    pyIdx n (j : Int) = if j < n then some j else none := by
  simp only [pyIdx]
  rw [if_neg (by omega : ¬((j : Int) < 0))]
  by_cases h : j < n
  · rw [if_pos ⟨by omega, by omega⟩, if_pos h]
    simp
  · rw [if_neg (by omega), if_neg h]

theorem pySetActive?_length {sl : List InputServerData} {i : Int} {v : Bool}
    {sl' : List InputServerData} (h : pySetActive? sl i v = some sl') :
    sl'.length = sl.length := by
  unfold pySetActive? at h
  cases hp : pyIdx sl.length i with
  | none => rw [hp] at h; exact absurd h (by simp)
  | some j =>
    rw [hp] at h
    simp only [Option.map_some'] at h
    rw [← Option.some.inj h]
    exact length_setActiveNat sl j v

theorem pyIdx_lt {n : Nat} {i : Int} {j : Nat} (h : pyIdx n i = some j) :
    j < n := by
  simp only [pyIdx] at h
  by_cases h0 : i < 0
  · simp only [if_pos h0] at h
    by_cases hc : 0 ≤ i + (n : Int) ∧ i + (n : Int) < (n : Int)
    · rw [if_pos hc] at h
      rw [← Option.some.inj h]; omega
    · rw [if_neg hc] at h; exact absurd h (by simp)
  · simp only [if_neg h0] at h
    by_cases hc : 0 ≤ i ∧ i < (n : Int)
    · rw [if_pos hc] at h
      rw [← Option.some.inj h]; omega
    · rw [if_neg hc] at h; exact absurd h (by simp)

theorem setLoop_length (idxs : List Int) : ∀ (sl : List InputServerData)
    (v : Bool), (setLoop sl idxs v).1.length = sl.length := by
  induction idxs with
  | nil => intro sl v; rfl
  | cons i rest ih =>
    intro sl v
    simp only [setLoop]
    cases hp : pySetActive? sl i v with
    | none => rfl
    | some sl' => rw [ih sl' v, pySetActive?_length hp]

theorem setLoop_preserve (idxs : List Int) : ∀ (sl : List InputServerData)
    (v : Bool) (j : Nat), activeAt sl j = some v →
    activeAt (setLoop sl idxs v).1 j = some v := by
  induction idxs with
  | nil => intro sl v j h; exact h
  | cons i rest ih =>
    intro sl v j h
    simp only [setLoop]
    cases hp : pySetActive? sl i v with
    | none => exact h
    | some sl' =>
      apply ih
      unfold pySetActive? at hp
      cases hq : pyIdx sl.length i with
      | none => rw [hq] at hp; exact absurd hp (by simp)
      | some j' =>
        rw [hq] at hp
        simp only [Option.map_some'] at hp
        rw [← Option.some.inj hp, activeAt_setActiveNat]
        by_cases hc : j = j' ∧ j' < sl.length
        · rw [if_pos hc]
        · rw [if_neg hc]; exact h

theorem setLoop_ok (idxs : List Int) : ∀ (sl : List InputServerData) (v : Bool),
    (∀ i ∈ idxs, (pyIdx sl.length i).isSome) →
    (setLoop sl idxs v).2 = true ∧
      ∀ i ∈ idxs, ∀ j, pyIdx sl.length i = some j →
        activeAt (setLoop sl idxs v).1 j = some v := by
  induction idxs with
  | nil => intro sl v _; exact ⟨rfl, by simp⟩
  | cons i rest ih =>
    intro sl v hval
    obtain ⟨j₀, hj₀⟩ : ∃ j₀, pyIdx sl.length i = some j₀ :=
      Option.isSome_iff_exists.mp (hval i (by simp))
    have hset : pySetActive? sl i v = some (setActiveNat sl j₀ v) := by
      unfold pySetActive?; rw [hj₀]; rfl
    simp only [setLoop, hset]
    have hlen : (setActiveNat sl j₀ v).length = sl.length :=
      length_setActiveNat sl j₀ v
    have hval' : ∀ i' ∈ rest, (pyIdx (setActiveNat sl j₀ v).length i').isSome := by
      intro i' hi'
      rw [hlen]
      exact hval i' (List.mem_cons_of_mem _ hi')
    obtain ⟨hok, hsets⟩ := ih (setActiveNat sl j₀ v) v hval'
    refine ⟨hok, ?_⟩
    intro i' hi' j hj
    rcases List.mem_cons.mp hi' with hEq | hmem
    · subst hEq
      rw [hj₀] at hj
      rw [← Option.some.inj hj]
      apply setLoop_preserve
      rw [activeAt_setActiveNat, if_pos ⟨rfl, pyIdx_lt hj₀⟩]
    · exact hsets i' hmem j (by rw [hlen]; exact hj)

theorem setLoop_fails (idxs : List Int) : ∀ (sl : List InputServerData)
    (v : Bool), (∃ i ∈ idxs, pyIdx sl.length i = none) →
    (setLoop sl idxs v).2 = false := by
  induction idxs with
  | nil => intro sl v h; simp at h
  | cons i rest ih =>
    rintro sl v ⟨i₀, hi₀, hbad⟩
    simp only [setLoop]
    cases hp : pySetActive? sl i v with
    | none => rfl
    | some sl' =>
      rcases List.mem_cons.mp hi₀ with hEq | hmem
      · subst hEq
        unfold pySetActive? at hp
        rw [hbad] at hp
        exact absurd hp (by simp)
      · exact ih sl' v ⟨i₀, hmem, by rw [pySetActive?_length hp]; exact hbad⟩

theorem activeAt_map_const (sl : List InputServerData) (b : Bool) (j : Nat) :
    activeAt (sl.map (fun sd => { sd with active := b })) j =
      if j < sl.length then some b else none := by
  unfold activeAt
  rw [List.getElem?_map]
  by_cases h : j < sl.length
  · obtain ⟨sd, hsd⟩ : ∃ sd, sl[j]? = some sd := by
      rw [List.getElem?_eq_getElem h]; exact ⟨_, rfl⟩
    simp [hsd, h]
  · simp [List.getElem?_eq_none (by omega : sl.length ≤ j), h]

theorem cb_button_true (uid : String) (bsd : List (String × Bool))
    (idxd : List (String × List Int)) (sl : List InputServerData)
    (idxs : List Int) (hidx : dictGet? idxd uid = some idxs) :
    cb_button true uid bsd idxd sl =
      some (dictSet bsd uid (!(dGetD bsd uid true)),
        (setLoop sl idxs (!(dGetD bsd uid true))).1,
        if (setLoop sl idxs (!(dGetD bsd uid true))).2 then [Effect.reflect]
        else []) := by
  unfold cb_button
  rw [if_pos rfl, hidx]
  dsimp only
  cases hS : setLoop sl idxs (!(dGetD bsd uid true)) with
  | mk sl' ok => cases ok <;> rfl

/-! ## Claim theorems -/

theorem pyIdx_spec (n : Nat) (i : Int) :
    pyIdx n i =
      if 0 ≤ (if i < 0 then i + n else i) ∧ (if i < 0 then i + n else i) < n
      then some (if i < 0 then i + n else i).toNat else none := rfl

/-- **C2** (corrected).  The claim says every debounce-passing,
section-changing position sample ends with an invocation of the Indicator
Reflector.  In the source, `cb_position` only prints console messages and
never calls `print_current_state` / `color_all_buttons`: no execution path of
the Position Router invokes the reflector, so the physical indicators are not
updated on position changes. -/
theorem C2_position_router_never_reflects (pos : Int) (width : ℚ)
    (st : PotiState) (sl : List InputServerData) :
    Effect.reflect ∉ effectsOf (cb_position pos width st sl) := by
  intro hmem
  unfold cb_position at hmem
  split at hmem
  · dsimp only at hmem
    split at hmem
    · simp [effectsOf] at hmem
    · split at hmem <;> simp_all [effectsOf]
  · simp [effectsOf] at hmem

/-- **C2** counterexample: position 50 (thresholds 5/95, three channels,
section width 30) passes the debounce check, changes the applied section from
-100 to 1 and mutates the active flags, yet the effect log holds only the
printed message and no reflector invocation — refuting the claim at this
input. -/
theorem C2_counterexample :
    cb_position 50 30 ⟨5, -100, -100⟩ (sampleList3 false false false) =
      some (⟨5, 50, 1⟩, sampleList3 true false false,
        [Effect.printMsg (PotiMsg.gamepadActive 1)]) ∧
    Effect.reflect ∉ [Effect.printMsg (PotiMsg.gamepadActive 1)] := by
  have hs : compute_section 5 30 50 = 1 := by
    unfold compute_section
    norm_num
  refine ⟨?_, by decide⟩
  simp only [cb_position, hs]
  norm_num [pySetActive?, pyIdx, pyGet?, setActiveNat, sampleList3,
    sampleChannel, sampleButton]

theorem index_setActiveNat (l : List InputServerData) (t : Nat) (v : Bool)
    (j : Nat) :
    ((setActiveNat l t v)[j]?).map (fun sd => sd.index) =
      (l[j]?).map (fun sd => sd.index) := by
  by_cases hjt : j = t
  · subst hjt
    unfold setActiveNat
    cases hg : l[j]? with
    | none =>
      dsimp only
      rw [hg]
    | some c =>
      have hlt : j < l.length := by
        by_contra hge
        rw [List.getElem?_eq_none (by omega)] at hg
        exact absurd hg (by simp)
      rw [List.getElem?_set_eq_of_lt _ hlt]
      rfl
  · rw [getElem?_setActiveNat_ne l t v j hjt]

/-- **C1** (corrected).  The claim says the single-section branch activates
exactly the channel whose index equals the computed section `k`.  The source
executes `server_list[section - 1].active = True`, so the activated channel
is the one at position `k - 1` for `1 <= k < N`, and — through Python's
negative indexing of `-1` — the *last* channel (position `N - 1`) for
`k = 0`; every other channel is deactivated.  The printed message reports the
`.index` of the channel at position `k` (`server_list[section].index`), so
for every registry with at least two channels the reported position and the
activated position differ; for `N = 1` both are position 0 and coincide. -/
theorem C1_single_section_activates_shifted (st : PotiState)
    (sl : List InputServerData) (pos : Int) (width : ℚ) (k : Int)
    (hdeb : 2 < |pos - st.old_position|)
    (hsec : compute_section st.lower_threshold width pos = k)
    (hk0 : 0 ≤ k) (hkN : k < (sl.length : Int))
    (hne : k ≠ st.old_section) :
    ∃ sd, sl[k.toNat]? = some sd ∧
      cb_position pos width st sl =
        some ({ st with old_position := pos, old_section := k },
          setActiveNat (sl.map (fun sd => { sd with active := false }))
            (if k = 0 then sl.length - 1 else (k - 1).toNat) true,
          [Effect.printMsg (PotiMsg.gamepadActive sd.index)]) ∧
      (2 ≤ sl.length →
        (if k = 0 then sl.length - 1 else (k - 1).toNat) ≠ k.toNat) ∧
      ∀ j, j < sl.length →
        activeAt (setActiveNat (sl.map (fun sd => { sd with active := false }))
            (if k = 0 then sl.length - 1 else (k - 1).toNat) true) j =
          some (decide (j = if k = 0 then sl.length - 1 else (k - 1).toNat)) := by
  have hclen : (sl.map (fun sd => { sd with active := false })).length =
      sl.length := by simp
  have htgtlt : (if k = 0 then sl.length - 1 else (k - 1).toNat) < sl.length := by
    split <;> omega
  have hpy : pyIdx (sl.map (fun sd => { sd with active := false })).length
      (k - 1) = some (if k = 0 then sl.length - 1 else (k - 1).toNat) := by
    rw [hclen, pyIdx_spec]
    by_cases hk : k = 0
    · simp only [if_pos (show k - 1 < 0 by omega)]
      rw [if_pos (by constructor <;> omega), if_pos hk]
      congr 1
      omega
    · simp only [if_neg (show ¬(k - 1 < 0) by omega)]
      rw [if_pos (by constructor <;> omega), if_neg hk]
  have hone : pySetActive? (sl.map (fun sd => { sd with active := false }))
      (k - 1) true =
      some (setActiveNat (sl.map (fun sd => { sd with active := false }))
        (if k = 0 then sl.length - 1 else (k - 1).toNat) true) := by
    unfold pySetActive?
    rw [hpy]
    rfl
  have hpyk : pyIdx (setActiveNat (sl.map (fun sd => { sd with active := false }))
      (if k = 0 then sl.length - 1 else (k - 1).toNat) true).length k =
      some k.toNat := by
    rw [length_setActiveNat, hclen, pyIdx_spec]
    simp only [if_neg (show ¬(k < 0) by omega)]
    rw [if_pos (by constructor <;> omega)]
  obtain ⟨sd, hsd⟩ : ∃ sd,
      (setActiveNat (sl.map (fun sd => { sd with active := false }))
        (if k = 0 then sl.length - 1 else (k - 1).toNat) true)[k.toNat]? =
      some sd := by
    rw [List.getElem?_eq_getElem
      (by rw [length_setActiveNat, hclen]; omega)]
    exact ⟨_, rfl⟩
  obtain ⟨sd₀, hsd₀⟩ : ∃ sd₀, sl[k.toNat]? = some sd₀ := by
    rw [List.getElem?_eq_getElem (show k.toNat < sl.length by omega)]
    exact ⟨_, rfl⟩
  have hindex : sd.index = sd₀.index := by
    have hch := index_setActiveNat (sl.map (fun sd => { sd with active := false }))
      (if k = 0 then sl.length - 1 else (k - 1).toNat) true k.toNat
    rw [hsd, List.getElem?_map, hsd₀] at hch
    exact Option.some.inj hch
  refine ⟨sd₀, hsd₀, ?_, ?_, ?_⟩
  · unfold cb_position
    rw [if_pos hdeb]
    try dsimp only
    rw [hsec, if_neg hne, if_neg (show ¬(k < 0) by omega),
      if_neg (show ¬((sl.length : Int) ≤ k) by omega), hone]
    try dsimp only
    unfold pyGet?
    rw [hpyk]
    simp only [Option.some_bind]
    rw [hsd]
    try dsimp only
    rw [hindex]
  · intro hN
    split <;> omega
  · intro j hj
    rw [activeAt_setActiveNat]
    by_cases hjt : j = if k = 0 then sl.length - 1 else (k - 1).toNat
    · rw [if_pos ⟨hjt, by rw [hclen]; exact htgtlt⟩]
      simp [hjt]
    · rw [if_neg (by rw [hclen]; tauto), activeAt_map_const, if_pos hj,
        decide_eq_false hjt]

/-- **C1** counterexample: position 50 (thresholds 5/95, three channels)
computes section `k = 1` with `0 <= 1 < 3`, yet afterwards channel 0 is the
only active channel and channel 1 — the channel the claim requires — is
inactive. -/
theorem C1_counterexample :
    compute_section 5 30 50 = 1 ∧
    activesOf (cb_position 50 30 ⟨5, -100, -100⟩ (sampleList3 false false false)) =
      some [true, false, false] := by
  have hs : compute_section 5 30 50 = 1 := by
    unfold compute_section
    norm_num
  refine ⟨hs, ?_⟩
  simp only [activesOf, cb_position, hs]
  norm_num [pySetActive?, pyIdx, pyGet?, setActiveNat, sampleList3,
    sampleChannel, sampleButton]

/-- **C1** witness: position 80 computes section 2 of 3; the channel at
position 1 is activated while the printed message reports the `.index` of
the channel at position 2, and the two positions differ. -/
theorem C1_witness :
    ∃ sd, (sampleList3 false false false)[(2 : Int).toNat]? = some sd ∧
      cb_position 80 30 ⟨5, -100, -100⟩ (sampleList3 false false false) =
        some ({ (⟨5, -100, -100⟩ : PotiState) with
            old_position := 80, old_section := 2 },
          setActiveNat ((sampleList3 false false false).map
            (fun sd => { sd with active := false }))
            (if (2 : Int) = 0 then (sampleList3 false false false).length - 1
              else ((2 : Int) - 1).toNat) true,
          [Effect.printMsg (PotiMsg.gamepadActive sd.index)]) ∧
      (2 ≤ (sampleList3 false false false).length →
        (if (2 : Int) = 0 then (sampleList3 false false false).length - 1
          else ((2 : Int) - 1).toNat) ≠ (2 : Int).toNat) ∧
      ∀ j, j < (sampleList3 false false false).length →
        activeAt (setActiveNat ((sampleList3 false false false).map
            (fun sd => { sd with active := false }))
            (if (2 : Int) = 0 then (sampleList3 false false false).length - 1
              else ((2 : Int) - 1).toNat) true) j =
          some (decide
            (j = if (2 : Int) = 0 then (sampleList3 false false false).length - 1
              else ((2 : Int) - 1).toNat)) := by
  have hs : compute_section 5 30 80 = 2 := by
    unfold compute_section
    norm_num
  exact C1_single_section_activates_shifted ⟨5, -100, -100⟩
    (sampleList3 false false false) 80 30 2 (by decide) hs (by decide)
    (by decide) (by decide)

/-- **C6** (corrected).  The claim says the Position Router's startup accepts
a configuration only when `lowerThreshold < upperThreshold`, failing for every
configuration with `lowerThreshold >= upperThreshold` including equality.  The
source's only threshold check is `assert(cls.upper_threshold >=
cls.lower_threshold)`, so the check passes exactly when
`lowerThreshold <= upperThreshold`: equality is accepted, and startup fails
only for strictly inverted thresholds. -/
theorem C6_threshold_check_accepts_le (lower upper : Int) :
    threshold_check lower upper = true ↔ lower ≤ upper := by
  unfold threshold_check
  exact decide_eq_true_iff

/-- **C6** counterexample: the configuration `lowerThreshold = upperThreshold
= 5` passes the startup check, refuting the claim that every configuration
with `lowerThreshold >= upperThreshold` fails at startup. -/
theorem C6_counterexample : threshold_check 5 5 = true := by decide

/-- **C4** (corrected).  The claim says an out-of-range channel index for a
button identity surfaces as a fatal `OutOfRange` error and is not swallowed.
In the source, `cb_button` wraps its body in `try ... except IndexError:
pass`: with a bound index list containing an out-of-range index the handler
returns normally, keeping the partial updates made before the bad index and
skipping `print_current_state` — the condition is silently ignored. -/
theorem C4_index_error_swallowed (uid : String) (bsd : List (String × Bool))
    (idxd : List (String × List Int)) (sl : List InputServerData)
    (idxs : List Int) (hidx : dictGet? idxd uid = some idxs)
    (hbad : ∃ i ∈ idxs, pyIdx sl.length i = none) :
    cb_button true uid bsd idxd sl =
      some (dictSet bsd uid (!(dGetD bsd uid true)),
        (setLoop sl idxs (!(dGetD bsd uid true))).1, []) := by
  rw [cb_button_true uid bsd idxd sl idxs hidx,
    setLoop_fails idxs sl (!(dGetD bsd uid true)) hbad]
  rfl

/-- **C4** counterexample: channel index 5 into a one-element server list —
the press handler neither raises nor reports; it returns normally with an
empty effect log, so the out-of-range condition is swallowed, refuting the
claim. -/
theorem C4_counterexample :
    (cb_button true "u" [] [("u", [5])] [sampleChannel 0 false]).isSome =
      true := by decide

/-- **C4** witness. -/
theorem C4_witness :
    cb_button true "u" [] [("u", [5])] [sampleChannel 0 false] =
      some ([("u", false)], [sampleChannel 0 false], []) := by
  have h := C4_index_error_swallowed "u" [] [("u", [5])]
    [sampleChannel 0 false] [5] (by decide) ⟨5, by decide, by decide⟩
  rw [h]
  rfl

/-- **C3** (corrected).  The claim says the first release-edge press for an
identity with no recorded `ButtonGroupState` sets the group state to `true`
and activates every bound channel.  The source computes `new_state = not
cls.button_state_dict.get(uid, True)`, whose default is `True`: for an unset
identity the first release-edge event stores `false` and *deactivates* every
(validly bound) channel. -/
theorem C3_first_press_sets_off (uid : String) (bsd : List (String × Bool))
    (idxd : List (String × List Int)) (sl : List InputServerData)
    (idxs : List Int)
    (hunset : dictGet? bsd uid = none)
    (hidx : dictGet? idxd uid = some idxs)
    (hval : ∀ i ∈ idxs, (pyIdx sl.length i).isSome) :
    cb_button true uid bsd idxd sl =
      some (dictSet bsd uid false, (setLoop sl idxs false).1,
        [Effect.reflect]) ∧
    dictGet? (dictSet bsd uid false) uid = some false ∧
    ∀ i ∈ idxs, ∀ j, pyIdx sl.length i = some j →
      activeAt (setLoop sl idxs false).1 j = some false := by
  have hv : (!(dGetD bsd uid true)) = false := by
    unfold dGetD
    rw [hunset]
    rfl
  obtain ⟨hok, hsets⟩ := setLoop_ok idxs sl false hval
  refine ⟨?_, dictGet?_dictSet_self bsd uid false, hsets⟩
  rw [cb_button_true uid bsd idxd sl idxs hidx, hv, hok]
  rfl

/-- **C7** (confirmed).  One button identity bound to the channel set
`{0, 1}`: every release-edge event flips the group state and assigns the
single new value to both bound channels, so two consecutive release-edge
events move channels 0 and 1 together from `(v, v)` to `(!v, !v)` regardless
of the active flags other routers left behind; a press event without a
release edge (`state` falsy) changes nothing and emits no effect. -/
theorem C7_release_edges_toggle_together (uid : String)
    (bsd : List (String × Bool)) (idxd : List (String × List Int))
    (sl : List InputServerData)
    (hidx : dictGet? idxd uid = some [0, 1]) (hlen : 2 ≤ sl.length) :
    ∃ bsd₁ sl₁,
      cb_button true uid bsd idxd sl = some (bsd₁, sl₁, [Effect.reflect]) ∧
      activeAt sl₁ 0 = some (!(dGetD bsd uid true)) ∧
      activeAt sl₁ 1 = some (!(dGetD bsd uid true)) ∧
      (∃ bsd₂ sl₂,
        cb_button true uid bsd₁ idxd sl₁ = some (bsd₂, sl₂, [Effect.reflect]) ∧
        activeAt sl₂ 0 = some (dGetD bsd uid true) ∧
        activeAt sl₂ 1 = some (dGetD bsd uid true)) ∧
      cb_button false uid bsd idxd sl = some (bsd, sl, []) := by
  have h0 : pyIdx sl.length 0 = some 0 := by
    have h := pyIdx_natCast sl.length 0
    rw [if_pos (by omega)] at h
    simpa using h
  have h1 : pyIdx sl.length 1 = some 1 := by
    have h := pyIdx_natCast sl.length 1
    rw [if_pos (by omega)] at h
    simpa using h
  have hval : ∀ i ∈ ([0, 1] : List Int), (pyIdx sl.length i).isSome := by
    intro i hi
    rcases List.mem_cons.mp hi with rfl | hi'
    · rw [h0]; rfl
    · rcases List.mem_cons.mp hi' with rfl | h''
      · rw [h1]; rfl
      · simp at h''
  obtain ⟨hok, hsets⟩ := setLoop_ok [0, 1] sl (!(dGetD bsd uid true)) hval
  have hL : (setLoop sl [0, 1] (!(dGetD bsd uid true))).1.length = sl.length :=
    setLoop_length [0, 1] sl (!(dGetD bsd uid true))
  refine ⟨dictSet bsd uid (!(dGetD bsd uid true)),
    (setLoop sl [0, 1] (!(dGetD bsd uid true))).1, ?_, ?_, ?_, ?_, ?_⟩
  · rw [cb_button_true uid bsd idxd sl [0, 1] hidx, hok]
    rfl
  · exact hsets 0 (by simp) 0 h0
  · exact hsets 1 (by simp) 1 h1
  · have hg : (!(dGetD (dictSet bsd uid (!(dGetD bsd uid true))) uid true)) =
        dGetD bsd uid true := by
      unfold dGetD
      rw [dictGet?_dictSet_self]
      simp
    have h0' : pyIdx (setLoop sl [0, 1] (!(dGetD bsd uid true))).1.length 0 =
        some 0 := by rw [hL]; exact h0
    have h1' : pyIdx (setLoop sl [0, 1] (!(dGetD bsd uid true))).1.length 1 =
        some 1 := by rw [hL]; exact h1
    have hval' : ∀ i ∈ ([0, 1] : List Int),
        (pyIdx (setLoop sl [0, 1] (!(dGetD bsd uid true))).1.length i).isSome := by
      intro i hi
      rw [hL]
      exact hval i hi
    obtain ⟨hok₂, hsets₂⟩ := setLoop_ok [0, 1]
      (setLoop sl [0, 1] (!(dGetD bsd uid true))).1
      (!(dGetD (dictSet bsd uid (!(dGetD bsd uid true))) uid true)) hval'
    refine ⟨dictSet (dictSet bsd uid (!(dGetD bsd uid true))) uid
        (!(dGetD (dictSet bsd uid (!(dGetD bsd uid true))) uid true)),
      (setLoop (setLoop sl [0, 1] (!(dGetD bsd uid true))).1 [0, 1]
        (!(dGetD (dictSet bsd uid (!(dGetD bsd uid true))) uid true))).1,
      ?_, ?_, ?_⟩
    · rw [cb_button_true uid (dictSet bsd uid (!(dGetD bsd uid true))) idxd
        (setLoop sl [0, 1] (!(dGetD bsd uid true))).1 [0, 1] hidx, hok₂]
      rfl
    · conv_rhs => rw [← hg]
      exact hsets₂ 0 (by simp) 0 h0'
    · conv_rhs => rw [← hg]
      exact hsets₂ 1 (by simp) 1 h1'
  · rfl

/-- **C7** witness. -/
theorem C7_witness :
    ∃ bsd₁ sl₁,
      cb_button true "u" [] [("u", [0, 1])] (sampleList3 true false true) =
        some (bsd₁, sl₁, [Effect.reflect]) ∧
      activeAt sl₁ 0 = some false ∧
      activeAt sl₁ 1 = some false ∧
      (∃ bsd₂ sl₂,
        cb_button true "u" bsd₁ [("u", [0, 1])] sl₁ =
          some (bsd₂, sl₂, [Effect.reflect]) ∧
        activeAt sl₂ 0 = some true ∧
        activeAt sl₂ 1 = some true) ∧
      cb_button false "u" [] [("u", [0, 1])] (sampleList3 true false true) =
        some ([], sampleList3 true false true, []) := by
  have h := C7_release_edges_toggle_together "u" [] [("u", [0, 1])]
    (sampleList3 true false true) (by decide) (by decide)
  simpa using h

/-- **C8** (confirmed).  With `lowerThreshold = 5`, `upperThreshold = 95` and
three channels (section width 30), starting from the initial router state and
any combination of active flags: position 0 deactivates all channels,
position 95 activates all channels, position 50 leaves exactly one channel
active (channel 0, per the source's `section - 1` indexing), and a follow-up
sample differing by one unit from the last processed position changes
nothing. -/
theorem C8_position_reference_points : ∀ a b c : Bool,
    activesOf (cb_position 0 30 initState (sampleList3 a b c)) =
      some [false, false, false] ∧
    activesOf (cb_position 95 30 initState (sampleList3 a b c)) =
      some [true, true, true] ∧
    cb_position 50 30 initState (sampleList3 a b c) =
      some (⟨5, 50, 1⟩, sampleList3 true false false,
        [Effect.printMsg (PotiMsg.gamepadActive 1)]) ∧
    cb_position 51 30 ⟨5, 50, 1⟩ (sampleList3 true false false) =
      some (⟨5, 50, 1⟩, sampleList3 true false false, []) := by
  have h0 : compute_section 5 30 0 = -1 := by
    unfold compute_section
    norm_num
  have h95 : compute_section 5 30 95 = 3 := by
    unfold compute_section
    norm_num
  have h50 : compute_section 5 30 50 = 1 := by
    unfold compute_section
    norm_num
  intro a b c
  refine ⟨?_, ?_, ?_, by decide⟩
  · simp only [activesOf, cb_position, initState, h0]
    norm_num [sampleList3, sampleChannel, sampleButton]
  · simp only [activesOf, cb_position, initState, h95]
    norm_num [sampleList3, sampleChannel, sampleButton]
  · simp only [cb_position, initState, h50]
    norm_num [pySetActive?, pyIdx, pyGet?, setActiveNat, sampleList3,
      sampleChannel, sampleButton]

theorem dGetD_foldl_colorStep (sl : List InputServerData) :
    ∀ (d : List (String × Color)) (uid : String),
    dGetD (sl.foldl colorStep d) uid (0, 0, 0) =
      ((sl.filter (fun sd => sd.rgb_button.uid = uid)).map chanColor).sum +
        dGetD d uid (0, 0, 0) := by
  induction sl with
  | nil => intro d uid; simp
  | cons sd rest ih =>
    intro d uid
    simp only [List.foldl_cons]
    rw [ih]
    by_cases h : sd.rgb_button.uid = uid
    · rw [List.filter_cons_of_pos (by simp [h]), List.map_cons, List.sum_cons]
      have hstep : dGetD (colorStep d sd) uid (0, 0, 0) =
          chanColor sd + dGetD d uid (0, 0, 0) := by
        unfold colorStep dGetD
        rw [h, dictGet?_dictSet_self]
        rfl
      rw [hstep]
      abel
    · rw [List.filter_cons_of_neg (by simp [h])]
      have hstep : dGetD (colorStep d sd) uid (0, 0, 0) =
          dGetD d uid (0, 0, 0) := by
        unfold colorStep dGetD
        rw [dictGet?_dictSet_ne _ _ _ _ (fun hh => h hh.symm)]
      rw [hstep]

theorem dictGet?_foldl_colorStep_isSome (sl : List InputServerData) :
    ∀ (d : List (String × Color)) (uid : String),
    (uid ∈ sl.map (fun sd => sd.rgb_button.uid) ∨ (dictGet? d uid).isSome) →
    (dictGet? (sl.foldl colorStep d) uid).isSome := by
  induction sl with
  | nil =>
    intro d uid h
    rcases h with h | h
    · simp at h
    · exact h
  | cons sd rest ih =>
    intro d uid h
    simp only [List.foldl_cons]
    apply ih
    rcases h with h | h
    · simp only [List.map_cons, List.mem_cons] at h
      rcases h with h | h
      · right
        unfold colorStep
        rw [h, dictGet?_dictSet_self]
        rfl
      · left
        exact h
    · right
      unfold colorStep
      by_cases hh : uid = sd.rgb_button.uid
      · rw [hh, dictGet?_dictSet_self]
        rfl
      · rw [dictGet?_dictSet_ne _ _ _ _ hh]
        exact h

/-- **C9** (confirmed).  Each invocation of `color_all_buttons` pushes, to
every indicator identity occurring in the registry, the component-wise
(unclamped) sum over the channels bound to that identity of the channel's
on-color when active and off-color when inactive. -/
theorem C9_indicator_additive_mixing (sl : List InputServerData) (uid : String)
    (h : uid ∈ sl.map (fun sd => sd.rgb_button.uid)) :
    dictGet? (color_all_buttons sl) uid =
      some (((sl.filter (fun sd => sd.rgb_button.uid = uid)).map chanColor).sum) := by
  have hs := dictGet?_foldl_colorStep_isSome sl [] uid (Or.inl h)
  obtain ⟨v, hv⟩ := Option.isSome_iff_exists.mp hs
  have hval := dGetD_foldl_colorStep sl [] uid
  unfold color_all_buttons
  unfold dGetD at hval
  rw [hv] at hval
  simp only [Option.getD_some] at hval
  rw [hv, hval, show (dictGet? ([] : List (String × Color)) uid).getD (0, 0, 0) =
    (0 : Color) from rfl, add_zero]

/-- **C9** witness: two channels sharing indicator `"x"`, one active with
on-color `(15,15,15)`, one inactive with off-color `(1,1,1)`; the pushed
combined color is `(16,16,16)`. -/
theorem C9_witness :
    dictGet? (color_all_buttons
      [{ index := 0, active := true,
         rgb_button := { uid := "x", color_off := (1, 1, 1),
                         color_on := (15, 15, 15) } },
       { index := 1, active := false,
         rgb_button := { uid := "x", color_off := (1, 1, 1),
                         color_on := (15, 15, 15) } }]) "x" =
      some (16, 16, 16) := by
  rw [C9_indicator_additive_mixing
    [{ index := 0, active := true,
       rgb_button := { uid := "x", color_off := (1, 1, 1),
                       color_on := (15, 15, 15) } },
     { index := 1, active := false,
       rgb_button := { uid := "x", color_off := (1, 1, 1),
                       color_on := (15, 15, 15) } }] "x" (by decide)]
  decide

theorem scan_step_some (pressed : String → Bool) (cp : List (String × Bool))
    (sl : List InputServerData) (i : Nat) (h : String) (hlt : i < sl.length) :
    ∃ cp' sl', scan_step pressed cp sl i h = some (cp', sl') ∧
      sl'.length = sl.length := by
  unfold scan_step
  by_cases hp : pressed h = true
  · rw [if_pos hp]
    cases hc : dGetD cp h false with
    | true =>
      simp only [hc]
      rw [if_pos trivial]
      exact ⟨cp, sl, rfl, rfl⟩
    | false =>
      rw [if_neg Bool.false_ne_true]
      have hpg : pyGet? sl (i : Int) = sl[i]? := by
        unfold pyGet?
        rw [pyIdx_natCast, if_pos hlt]
        rfl
      obtain ⟨sd, hsd⟩ : ∃ sd, sl[i]? = some sd := by
        rw [List.getElem?_eq_getElem hlt]
        exact ⟨_, rfl⟩
      rw [hpg, hsd]
      exact ⟨_, _, rfl, length_setActiveNat sl i _⟩
  · rw [if_neg hp]
    exact ⟨_, sl, rfl, rfl⟩

theorem scan_go_queries (pressed : String → Bool) (hl : List String) :
    ∀ (i : Nat) (cp : List (String × Bool)) (sl : List InputServerData),
    i + hl.length ≤ sl.length → (scan_go pressed i hl cp sl).1 = hl := by
  induction hl with
  | nil => intro i cp sl _; rfl
  | cons h rest ih =>
    intro i cp sl hlen
    obtain ⟨cp', sl', hstep, hslen⟩ := scan_step_some pressed cp sl i h
      (by simp only [List.length_cons] at hlen; omega)
    simp only [scan_go, hstep]
    try dsimp only
    rw [ih (i + 1) cp' sl'
      (by rw [hslen]; simp only [List.length_cons] at hlen; omega)]

/-- **C5** (corrected).  The claim says a channel with an empty hotkey string
is skipped entirely: never queried, never toggled, never failing.  Only the
startup validation skips empty strings (`if hotkey:` in `verify_hotkeys`);
the scan loop itself calls `is_pressed(hotkey)` unconditionally for every
entry of the hotkey list — including the empty string — on every pass, so an
empty binding is handed to the key-checker each tick and its fate rests on
the external `keyboard` library, not on any skip in this code. -/
theorem C5_scan_queries_every_hotkey (hl : List String) :
    "" ∉ verify_parsed hl ∧
    ∀ (pressed : String → Bool) (cp : List (String × Bool))
      (sl : List InputServerData), hl.length ≤ sl.length →
      (scan_pass pressed hl cp sl).1 = hl := by
  constructor
  · unfold verify_parsed
    intro hmem
    have hk := (List.mem_filter.mp hmem).2
    simp at hk
  · intro pressed cp sl hlen
    exact scan_go_queries pressed hl 0 cp sl (by omega)

/-- **C5** counterexample: a hotkey list holding one empty string — a single
pass of the scan loop hands the empty string to the key-checker, refuting
"the scan loop never queries the key-checker for the empty string". -/
theorem C5_counterexample :
    "" ∈ (scan_pass (fun _ => false) [""] [] [sampleChannel 0 false]).1 := by
  decide

theorem scan_step_other (pressed : String → Bool) (cp : List (String × Bool))
    (sl : List InputServerData) (i : Nat) (h' h : String) (hne : h' ≠ h)
    (hlt : i < sl.length) :
    ∃ cp' sl', scan_step pressed cp sl i h' = some (cp', sl') ∧
      sl'.length = sl.length ∧
      dictGet? cp' h = dictGet? cp h ∧
      ∀ j, j ≠ i → sl'[j]? = sl[j]? := by
  unfold scan_step
  by_cases hp : pressed h' = true
  · rw [if_pos hp]
    cases hc : dGetD cp h' false with
    | true =>
      simp only [hc]
      rw [if_pos trivial]
      exact ⟨cp, sl, rfl, rfl, rfl, fun j _ => rfl⟩
    | false =>
      rw [if_neg Bool.false_ne_true]
      have hpg : pyGet? sl (i : Int) = sl[i]? := by
        unfold pyGet?
        rw [pyIdx_natCast, if_pos hlt]
        rfl
      obtain ⟨sd, hsd⟩ : ∃ sd, sl[i]? = some sd := by
        rw [List.getElem?_eq_getElem hlt]
        exact ⟨_, rfl⟩
      rw [hpg, hsd]
      exact ⟨_, _, rfl, length_setActiveNat sl i _,
        dictGet?_dictSet_ne cp h' h true (Ne.symm hne),
        fun j hj => getElem?_setActiveNat_ne sl i _ j hj⟩
  · rw [if_neg hp]
    exact ⟨_, sl, rfl, rfl, dictGet?_dictSet_ne cp h' h false (Ne.symm hne),
      fun j _ => rfl⟩

theorem scan_step_key_press (pressed : String → Bool)
    (cp : List (String × Bool)) (sl : List InputServerData) (i : Nat)
    (h : String) (hp : pressed h = true) (hc : dGetD cp h false = false)
    (hlt : i < sl.length) :
    ∃ sd, sl[i]? = some sd ∧
      scan_step pressed cp sl i h =
        some (dictSet cp h true, setActiveNat sl i (!sd.active)) := by
  obtain ⟨sd, hsd⟩ : ∃ sd, sl[i]? = some sd := by
    rw [List.getElem?_eq_getElem hlt]
    exact ⟨_, rfl⟩
  refine ⟨sd, hsd, ?_⟩
  unfold scan_step
  rw [if_pos hp, hc, if_neg Bool.false_ne_true]
  have hpg : pyGet? sl (i : Int) = sl[i]? := by
    unfold pyGet?
    rw [pyIdx_natCast, if_pos hlt]
    rfl
  rw [hpg, hsd]

theorem scan_step_key_held (pressed : String → Bool)
    (cp : List (String × Bool)) (sl : List InputServerData) (i : Nat)
    (h : String) (hp : pressed h = true) (hc : dGetD cp h false = true) :
    scan_step pressed cp sl i h = some (cp, sl) := by
  unfold scan_step
  rw [if_pos hp]
  simp only [hc]
  rw [if_pos trivial]

theorem scan_step_key_release (pressed : String → Bool)
    (cp : List (String × Bool)) (sl : List InputServerData) (i : Nat)
    (h : String) (hp : pressed h = false) :
    scan_step pressed cp sl i h = some (dictSet cp h false, sl) := by
  unfold scan_step
  rw [if_neg (by rw [hp]; exact Bool.false_ne_true)]

theorem scan_go_nokey (pressed : String → Bool) (h : String)
    (hl : List String) :
    ∀ (i : Nat) (cp : List (String × Bool)) (sl : List InputServerData),
    i + hl.length ≤ sl.length → h ∉ hl →
    ∃ cp' sl', (scan_go pressed i hl cp sl).2 = some (cp', sl') ∧
      sl'.length = sl.length ∧
      dictGet? cp' h = dictGet? cp h ∧
      ∀ j, j < i → sl'[j]? = sl[j]? := by
  induction hl with
  | nil =>
    intro i cp sl _ _
    exact ⟨cp, sl, rfl, rfl, rfl, fun j _ => rfl⟩
  | cons h₀ rest ih =>
    intro i cp sl hlen hmem
    have hne : h₀ ≠ h := fun hEq => hmem (hEq ▸ List.mem_cons_self h₀ rest)
    obtain ⟨cp₁, sl₁, hstep, hlen₁, hdict₁, hframe₁⟩ :=
      scan_step_other pressed cp sl i h₀ h hne
        (by simp only [List.length_cons] at hlen; omega)
    obtain ⟨cp', sl', hrest, hlen', hdict', hframe'⟩ := ih (i + 1) cp₁ sl₁
      (by rw [hlen₁]; simp only [List.length_cons] at hlen; omega)
      (fun hm => hmem (List.mem_cons_of_mem h₀ hm))
    refine ⟨cp', sl', ?_, by rw [hlen', hlen₁], by rw [hdict', hdict₁], ?_⟩
    · simp only [scan_go, hstep]
      exact hrest
    · intro j hj
      rw [hframe' j (by omega), hframe₁ j (by omega)]

theorem scan_many_append (xs ys : List (String → Bool)) (hl : List String) :
    ∀ st, scan_many (xs ++ ys) hl st =
      match scan_many xs hl st with
      | none => none
      | some st' => scan_many ys hl st' := by
  induction xs with
  | nil => intro st; rfl
  | cons o xs ih =>
    intro st
    simp only [List.cons_append, scan_many]
    cases (scan_pass o hl st.1 st.2).2 with
    | none => rfl
    | some st' => exact ih st'

theorem activeAt_congr {sl sl' : List InputServerData} {j : Nat}
    (h : sl'[j]? = sl[j]?) : activeAt sl' j = activeAt sl j := by
  unfold activeAt
  rw [h]

theorem scan_go_key (pressed : String → Bool) (h : String) (hl : List String) :
    ∀ (ip i : Nat) (cp : List (String × Bool)) (sl : List InputServerData),
    hl[ip]? = some h →
    (∀ q, hl[q]? = some h → q = ip) →
    i + hl.length ≤ sl.length →
    ∃ cp' sl', (scan_go pressed i hl cp sl).2 = some (cp', sl') ∧
      sl'.length = sl.length ∧
      (pressed h = true → dGetD cp h false = false →
        dictGet? cp' h = some true ∧
        ∀ b, activeAt sl (i + ip) = some b →
          activeAt sl' (i + ip) = some (!b)) ∧
      (pressed h = true → dGetD cp h false = true →
        dictGet? cp' h = dictGet? cp h ∧
        activeAt sl' (i + ip) = activeAt sl (i + ip)) ∧
      (pressed h = false →
        dictGet? cp' h = some false ∧
        activeAt sl' (i + ip) = activeAt sl (i + ip)) := by
  induction hl with
  | nil =>
    intro ip i cp sl hget _ _
    simp at hget
  | cons h₀ rest ih =>
    intro ip i cp sl hget huniq hlen
    have hlen' : i < sl.length := by
      simp only [List.length_cons] at hlen
      omega
    cases ip with
    | zero =>
      have hh : h₀ = h := by simpa using hget
      subst hh
      simp only [Nat.add_zero]
      have hrest_nomem : h₀ ∉ rest := by
        intro hm
        obtain ⟨q, hq⟩ := List.get?_of_mem hm
        rw [List.get?_eq_getElem?] at hq
        have := huniq (q + 1) (by simpa using hq)
        omega
      by_cases hp : pressed h₀ = true
      · cases hc : dGetD cp h₀ false with
        | false =>
          obtain ⟨sd, hsd, hstep⟩ :=
            scan_step_key_press pressed cp sl i h₀ hp hc hlen'
          obtain ⟨cp', sl', hgo, hL, hD, hF⟩ := scan_go_nokey pressed h₀ rest
            (i + 1) (dictSet cp h₀ true) (setActiveNat sl i (!sd.active))
            (by
              rw [length_setActiveNat]
              simp only [List.length_cons] at hlen
              omega)
            hrest_nomem
          refine ⟨cp', sl', ?_, by rw [hL, length_setActiveNat], ?_, ?_, ?_⟩
          · simp only [scan_go, hstep]
            exact hgo
          · intro _ _
            refine ⟨by rw [hD, dictGet?_dictSet_self], ?_⟩
            intro b hb
            have hb' : sd.active = b := by
              unfold activeAt at hb
              rw [hsd] at hb
              exact Option.some.inj (by simpa using hb)
            rw [activeAt_congr (hF i (by omega)), activeAt_setActiveNat,
              if_pos ⟨rfl, hlen'⟩, hb']
          · intro _ hcf
            exact absurd hcf (by simp)
          · intro hpf
            rw [hp] at hpf
            exact absurd hpf (by simp)
        | true =>
          have hstep := scan_step_key_held pressed cp sl i h₀ hp hc
          obtain ⟨cp', sl', hgo, hL, hD, hF⟩ := scan_go_nokey pressed h₀ rest
            (i + 1) cp sl
            (by
              simp only [List.length_cons] at hlen
              omega)
            hrest_nomem
          refine ⟨cp', sl', ?_, hL, ?_, ?_, ?_⟩
          · simp only [scan_go, hstep]
            exact hgo
          · intro _ hcf
            exact absurd hcf (by simp)
          · intro _ _
            exact ⟨hD, activeAt_congr (hF i (by omega))⟩
          · intro hpf
            rw [hp] at hpf
            exact absurd hpf (by simp)
      · have hp' : pressed h₀ = false := by
          revert hp
          cases pressed h₀ <;> simp
        have hstep := scan_step_key_release pressed cp sl i h₀ hp'
        obtain ⟨cp', sl', hgo, hL, hD, hF⟩ := scan_go_nokey pressed h₀ rest
          (i + 1) (dictSet cp h₀ false) sl
          (by
            simp only [List.length_cons] at hlen
            omega)
          hrest_nomem
        refine ⟨cp', sl', ?_, hL, ?_, ?_, ?_⟩
        · simp only [scan_go, hstep]
          exact hgo
        · intro hpt _
          rw [hp'] at hpt
          exact absurd hpt (by simp)
        · intro hpt _
          rw [hp'] at hpt
          exact absurd hpt (by simp)
        · intro _
          refine ⟨by rw [hD, dictGet?_dictSet_self], ?_⟩
          exact activeAt_congr (hF i (by omega))
    | succ q =>
      have hne : h₀ ≠ h := by
        intro hEq
        have h0 := huniq 0 (by simpa using hEq)
        omega
      obtain ⟨cp₁, sl₁, hstep, hlen₁, hdict₁, hframe₁⟩ :=
        scan_step_other pressed cp sl i h₀ h hne hlen'
      have hget' : rest[q]? = some h := by simpa using hget
      have huniq' : ∀ q', rest[q']? = some h → q' = q := by
        intro q' hq'
        have := huniq (q' + 1) (by simpa using hq')
        omega
      obtain ⟨cp', sl', hgo, hL, hcase1, hcase2, hcase3⟩ := ih q (i + 1) cp₁ sl₁
        hget' huniq'
        (by
          rw [hlen₁]
          simp only [List.length_cons] at hlen
          omega)
      have hidx : i + 1 + q = i + (q + 1) := by omega
      rw [hidx] at hcase1 hcase2 hcase3
      have hAc : activeAt sl₁ (i + (q + 1)) = activeAt sl (i + (q + 1)) :=
        activeAt_congr (hframe₁ _ (by omega))
      have hdG : dGetD cp₁ h false = dGetD cp h false := by
        unfold dGetD
        rw [hdict₁]
      refine ⟨cp', sl', ?_, by rw [hL, hlen₁], ?_, ?_, ?_⟩
      · simp only [scan_go, hstep]
        exact hgo
      · intro hpt hcf
        obtain ⟨hD, hA⟩ := hcase1 hpt (by rw [hdG]; exact hcf)
        refine ⟨hD, ?_⟩
        intro b hb
        exact hA b (by rw [hAc]; exact hb)
      · intro hpt hct
        obtain ⟨hD, hA⟩ := hcase2 hpt (by rw [hdG]; exact hct)
        exact ⟨by rw [hD, hdict₁], by rw [hA, hAc]⟩
      · intro hpf
        obtain ⟨hD, hA⟩ := hcase3 hpf
        exact ⟨hD, by rw [hA, hAc]⟩

theorem scan_many_hold (h : String) (hl : List String) (ip : Nat)
    (os : List (String → Bool)) :
    ∀ (cp : List (String × Bool)) (sl : List InputServerData),
    hl[ip]? = some h →
    (∀ q, hl[q]? = some h → q = ip) →
    hl.length ≤ sl.length →
    dictGet? cp h = some true →
    (∀ o ∈ os, o h = true) →
    ∃ cp' sl', scan_many os hl (cp, sl) = some (cp', sl') ∧
      sl'.length = sl.length ∧ dictGet? cp' h = some true ∧
      activeAt sl' ip = activeAt sl ip := by
  induction os with
  | nil =>
    intro cp sl _ _ _ hd _
    exact ⟨cp, sl, rfl, rfl, hd, rfl⟩
  | cons o os ih =>
    intro cp sl hget huniq hlen hd hall
    have ho : o h = true := hall o (by simp)
    obtain ⟨cp₁, sl₁, hgo, hL, hc1, hc2, hc3⟩ :=
      scan_go_key o h hl ip 0 cp sl hget huniq (by omega)
    simp only [Nat.zero_add] at hc1 hc2 hc3
    obtain ⟨hD, hA⟩ := hc2 ho (by unfold dGetD; rw [hd]; rfl)
    obtain ⟨cp', sl', hrest, hL', hd', hA'⟩ := ih cp₁ sl₁ hget huniq
      (by rw [hL]; exact hlen) (by rw [hD]; exact hd)
      (fun o' ho' => hall o' (List.mem_cons_of_mem o ho'))
    refine ⟨cp', sl', ?_, by rw [hL', hL], hd', by rw [hA', hA]⟩
    simp only [scan_many, scan_pass, hgo]
    exact hrest

theorem scan_many_press_hold (h : String) (hl : List String) (ip : Nat)
    (os : List (String → Bool)) (cp : List (String × Bool))
    (sl : List InputServerData)
    (hget : hl[ip]? = some h) (huniq : ∀ q, hl[q]? = some h → q = ip)
    (hlen : hl.length ≤ sl.length) (hcp : dGetD cp h false = false)
    (hos : os ≠ []) (hall : ∀ o ∈ os, o h = true) (b : Bool)
    (hb : activeAt sl ip = some b) :
    ∃ cp' sl', scan_many os hl (cp, sl) = some (cp', sl') ∧
      sl'.length = sl.length ∧ dictGet? cp' h = some true ∧
      activeAt sl' ip = some (!b) := by
  cases os with
  | nil => exact absurd rfl hos
  | cons o os =>
    have ho : o h = true := hall o (by simp)
    obtain ⟨cp₁, sl₁, hgo, hL, hc1, hc2, hc3⟩ :=
      scan_go_key o h hl ip 0 cp sl hget huniq (by omega)
    simp only [Nat.zero_add] at hc1 hc2 hc3
    obtain ⟨hD, hA⟩ := hc1 ho hcp
    have hA₁ := hA b hb
    obtain ⟨cp', sl', hrest, hL', hd', hA'⟩ := scan_many_hold h hl ip os cp₁
      sl₁ hget huniq (by rw [hL]; exact hlen) hD
      (fun o' ho' => hall o' (List.mem_cons_of_mem o ho'))
    refine ⟨cp', sl', ?_, by rw [hL', hL], hd', by rw [hA', hA₁]⟩
    simp only [scan_many, scan_pass, hgo]
    exact hrest

/-- **C10** (confirmed).  For a hotkey `h` occurring exactly once (at
position `ip`) in the hotkey list and currently released in the
edge-detection memory: any non-empty run of polls all reporting `h` pressed
toggles the bound channel (`server_list[ip]`) exactly once — the final flag
is the negation of the initial one for *every* run length, so no further
toggle happens while held; and after one poll reporting `h` released, a new
non-empty run of pressed polls toggles the channel again (back to the
initial flag after the second edge).  Oracles may report other hotkeys
arbitrarily. -/
theorem C10_press_hold_single_toggle (hl : List String)
    (sl : List InputServerData) (cp : List (String × Bool)) (ip : Nat)
    (h : String) (os₁ os₂ : List (String → Bool)) (o₀ : String → Bool)
    (b : Bool)
    (hget : hl[ip]? = some h) (hne : h ≠ "")
    (huniq : ∀ q, hl[q]? = some h → q = ip)
    (hlen : hl.length ≤ sl.length)
    (hcp : dGetD cp h false = false)
    (hb : activeAt sl ip = some b)
    (hos₁ : os₁ ≠ []) (hp₁ : ∀ o ∈ os₁, o h = true)
    (ho₀ : o₀ h = false)
    (hos₂ : os₂ ≠ []) (hp₂ : ∀ o ∈ os₂, o h = true) :
    (∃ cp₁ sl₁, scan_many os₁ hl (cp, sl) = some (cp₁, sl₁) ∧
      activeAt sl₁ ip = some (!b)) ∧
    (∃ cp₂ sl₂, scan_many (os₁ ++ o₀ :: os₂) hl (cp, sl) = some (cp₂, sl₂) ∧
      activeAt sl₂ ip = some b) := by
  obtain ⟨cp₁, sl₁, hm₁, hL₁, hd₁, hA₁⟩ := scan_many_press_hold h hl ip os₁
    cp sl hget huniq hlen hcp hos₁ hp₁ b hb
  refine ⟨⟨cp₁, sl₁, hm₁, hA₁⟩, ?_⟩
  obtain ⟨cp₂, sl₂, hgo₂, hL₂, _, _, hc3⟩ :=
    scan_go_key o₀ h hl ip 0 cp₁ sl₁ hget huniq (by rw [hL₁]; omega)
  simp only [Nat.zero_add] at hc3
  obtain ⟨hD₂, hA₂⟩ := hc3 ho₀
  obtain ⟨cp₃, sl₃, hm₃, hL₃, hd₃, hA₃⟩ := scan_many_press_hold h hl ip os₂
    cp₂ sl₂ hget huniq (by rw [hL₂, hL₁]; exact hlen)
    (by unfold dGetD; rw [hD₂]; rfl) hos₂ hp₂ (!b) (by rw [hA₂]; exact hA₁)
  refine ⟨cp₃, sl₃, ?_, by rw [hA₃, Bool.not_not]⟩
  rw [scan_many_append os₁ (o₀ :: os₂) hl (cp, sl), hm₁]
  simp only [scan_many, scan_pass, hgo₂]
  exact hm₃

/-- **C10** witness: hotkey `"a"` at index 0 of `["a", "z"]`, two channels
initially inactive, edge memory empty; two held-pressed polls toggle channel
0 once to `true`; appending one released poll and one pressed poll toggles
it again, back to `false`. -/
theorem C10_witness :
    (∃ cp₁ sl₁,
      scan_many [fun _ => true, fun _ => true] ["a", "z"]
        ([], [sampleChannel 0 false, sampleChannel 1 false]) =
        some (cp₁, sl₁) ∧
      activeAt sl₁ 0 = some true) ∧
    (∃ cp₂ sl₂,
      scan_many ([fun _ => true, fun _ => true] ++
          (fun _ => false) :: [fun _ => true]) ["a", "z"]
        ([], [sampleChannel 0 false, sampleChannel 1 false]) =
        some (cp₂, sl₂) ∧
      activeAt sl₂ 0 = some false) := by
  have h := C10_press_hold_single_toggle ["a", "z"]
    [sampleChannel 0 false, sampleChannel 1 false] [] 0 "a"
    [fun _ => true, fun _ => true] [fun _ => true] (fun _ => false) false
    (by decide) (by decide)
    (by
      intro q hq
      match q with
      | 0 => rfl
      | 1 => simp at hq
      | (n + 2) => simp at hq)
    (by decide) (by decide) (by decide)
    (List.cons_ne_nil _ _)
    (by
      intro o ho
      simp only [List.mem_cons, List.mem_singleton] at ho
      rcases ho with rfl | rfl | hF
      · rfl
      · rfl
      · simp at hF)
    rfl
    (List.cons_ne_nil _ _)
    (by
      intro o ho
      simp only [List.mem_singleton] at ho
      rw [ho])
  simpa using h

/-- **C3** counterexample: identity `"u"` is unset and bound to channel 0,
which is currently active; the first release-edge event stores group state
`false` and deactivates the channel — the claim demanded `true` and
activation. -/
theorem C3_counterexample :
    cb_button true "u" [] [("u", [0])] [sampleChannel 0 true] =
      some ([("u", false)], [sampleChannel 0 false], [Effect.reflect]) := by
  decide

/-- **C3** witness. -/
theorem C3_witness :
    cb_button true "v" [] [("v", [0])] [sampleChannel 0 false] =
      some ([("v", false)], [sampleChannel 0 false], [Effect.reflect]) := by
  obtain ⟨h1, h2, h3⟩ := C3_first_press_sets_off "v" [] [("v", [0])]
    [sampleChannel 0 false] [0] (by decide) (by decide) (by decide)
  rw [h1]
  rfl

end GamepadClient
